import Mathlib

/-!
Verification of the LM Studio sidekick server core
(rate limiter, context store, completion gateway, batch dispatcher)
against its specification.

The Python source is shallowly embedded: module-level mutable state
(`rate_limiter`, `context_store`) becomes explicit state threaded through
the operations, wall-clock readings (`time.time()`) become explicit
integer time arguments (the rate-limit logic only compares differences of
readings against the window, so any time scale works; integer seconds keep
every statement computable), `datetime.now().isoformat()` becomes an explicit
string argument, and the HTTP backend becomes an explicit `BackendOutcome`
argument describing what the one outbound request would have produced.
Environment-configurable constants (`RATE_LIMIT_WINDOW`,
`RATE_LIMIT_MAX_REQUESTS`, `MAX_CONTEXT_SIZE`) become a `Config` record;
the defaults are 60, 30 and 32000.
-/

/-- Configuration constants read once at startup: `RATE_LIMIT_WINDOW`
(seconds), `RATE_LIMIT_MAX_REQUESTS`, and `MAX_CONTEXT_SIZE` (tokens). -/
structure Config where
  window : ℤ
  maxReq : ℕ
  maxCtx : ℕ
deriving DecidableEq

/-- The default configuration: 60-second window, 30 requests, 32000 tokens. -/
def defaultConfig : Config := ⟨60, 30, 32000⟩

/-- Host component of the backend address (default value of `LMSTUDIO_HOST`). -/
def LMSTUDIO_HOST : String := "localhost"

/-- Port component of the backend address (default value of `LMSTUDIO_PORT`). -/
def LMSTUDIO_PORT : String := "1234"

/-- `estimate_tokens`: rough token estimation, `len(text) // 4`. -/
def estimate_tokens (text : String) : ℕ := text.length / 4

/-- The `rate_limiter` defaultdict: client id to list of request timestamps,
oldest first.  A missing key reads as the empty list, exactly as
`defaultdict(list)` does. -/
abbrev RLState := String → List ℤ

/-- Pointwise update of the rate-limiter map at one key, mirroring the
assignment `rate_limiter[client_id] = ...`. -/
def updMap (m : RLState) (c : String) (w : List ℤ) : RLState :=
  fun k => if k = c then w else m k

/-- The list comprehension in `check_rate_limit` that drops entries with
`now - t >= RATE_LIMIT_WINDOW`. -/
def prune (cfg : Config) (st : List ℤ) (now : ℤ) : List ℤ :=
  st.filter (fun t => decide (now - t < cfg.window))

/-- `check_rate_limit` restricted to one client's timestamp list: prune old
entries, refuse when `RATE_LIMIT_MAX_REQUESTS` survive, otherwise append
`now` and admit.  Returns the updated list and the admission decision. -/
def check_rate_limit (cfg : Config) (st : List ℤ) (now : ℤ) : List ℤ × Bool :=
  if cfg.maxReq ≤ (prune cfg st now).length then (prune cfg st now, false)
  else (prune cfg st now ++ [now], true)

/-- `check_rate_limit` acting on the whole `rate_limiter` map; the pruned
(and possibly extended) list is written back at `client_id` even on
refusal, exactly as the Python assignment does. -/
def check_rate_limitM (cfg : Config) (m : RLState) (c : String) (now : ℤ) :
    RLState × Bool :=
  (updMap m c (check_rate_limit cfg (m c) now).1, (check_rate_limit cfg (m c) now).2)

/-- Outcome of the single `POST /v1/chat/completions` request a gateway call
would issue: a 200 response with extracted content, a non-200 status, a 200
response with an empty `choices` array, or a raised exception (connection
errors included). -/
inductive BackendOutcome where
  | ok (content : String)
  | httpError (code : ℕ)
  | noChoices
  | exn (msg : String)
deriving DecidableEq

/-- Text produced by the body of `chat_completion` after the rate-limit
check, for each backend outcome.  An empty extracted content yields the
"Empty response" message, mirroring `if not content`. -/
def renderBackend : BackendOutcome → String
  | .ok c =>
      if c = "" then "Error: Empty response from model" else c
  | .httpError code =>
      "Error: LM Studio at " ++ LMSTUDIO_HOST ++ ":" ++ LMSTUDIO_PORT ++
        " returned status code " ++ toString code
  | .noChoices => "Error: No response generated"
  | .exn m => "Error generating completion: " ++ m

/-- The rate-limit refusal message shared by `chat_completion`,
`automate_menial_task` (and, with different wording, `batch_process`). -/
def rateLimitMsg : String :=
  "⚠️ Rate limit exceeded. Please wait a moment before trying again."

/-- Result of one `chat_completion` call: the returned text, the
rate-limiter map afterwards, and whether the backend request was issued. -/
structure GatewayResult where
  output : String
  rl : RLState
  backendCalled : Bool

/-- `chat_completion`: consult the rate limiter under the default client id
(`check_rate_limit()` is called with no argument), refusing without any
backend traffic when admission is denied; otherwise issue the one backend
request and render its outcome.  The prompt-assembly arguments are carried
for fidelity but do not influence the state. -/
def chat_completion (cfg : Config) (m : RLState) (now : ℤ)
    (prompt system_prompt : String) (backend : BackendOutcome) : GatewayResult :=
  if (check_rate_limitM cfg m "default" now).2 then
    { output := renderBackend backend
      rl := (check_rate_limitM cfg m "default" now).1
      backendCalled := true }
  else
    { output := rateLimitMsg
      rl := (check_rate_limitM cfg m "default" now).1
      backendCalled := false }

/-- An entry of `context_store`: the stored data, its `datetime.now()`
iso timestamp, and the estimated token count recorded at creation. -/
structure ContextEntry where
  data : String
  timestamp : String
  tokens : ℕ
deriving DecidableEq

/-- The `context_store` dict: an insertion-ordered association list from
context id to entry, keys unique by construction. -/
abbrev CtxStore := List (String × ContextEntry)

/-- Key membership test, mirroring `context_id in context_store`. -/
def dictHas (m : CtxStore) (k : String) : Bool :=
  m.any (fun p => p.1 == k)

/-- Lookup, mirroring `context_store[context_id]` on a present key. -/
def dictGet (m : CtxStore) (k : String) : Option ContextEntry :=
  (m.find? (fun p => p.1 == k)).map (fun p => p.2)

/-- Dict assignment `context_store[k] = v`: overwrite in place when the key
exists, otherwise append at the end (Python dicts preserve insertion
order). -/
def dictSet (m : CtxStore) (k : String) (v : ContextEntry) : CtxStore :=
  if dictHas m k then m.map (fun p => if p.1 == k then (k, v) else p)
  else m ++ [(k, v)]

/-- Dict deletion `del context_store[k]`. -/
def dictDel (m : CtxStore) (k : String) : CtxStore :=
  m.filter (fun p => !(p.1 == k))

/-- Whether `pat` starts the character list `s` (helper for the Python
substring test `pat in s`). -/
def strStarts : List Char → List Char → Bool
  | [], _ => true
  | _ :: _, [] => false
  | a :: p, b :: s => a == b && strStarts p s

/-- Whether `pat` occurs as a contiguous sublist of `s` (helper for the
Python substring test `pat in s`). -/
def subSeq (p : List Char) : List Char → Bool
  | [] => p.isEmpty
  | b :: s => strStarts p (b :: s) || subSeq p s

/-- The Python substring test `pat in s` on strings. -/
def strHasSub (s pat : String) : Bool := subSeq pat.data s.data

/-- The fixed system prompt of the `summarize` operation. -/
def summarizeSystemPrompt : String :=
  "You are a helpful assistant that creates concise summaries. Summarize the following context, preserving key information."

/-- The fixed system prompt of the `analyze` operation. -/
def analyzeSystemPrompt : String :=
  "You are an analytical assistant. Extract key points, entities, and actionable items from the context."

/-- The fixed system prompt of the batch loop. -/
def batchSystemPrompt : String :=
  "You are a batch processing assistant. Process each item according to the specified operation. Be consistent across all items."

/-- Combined mutable state of the module: the rate-limiter map and the
context store. -/
structure SState where
  rl : RLState
  ctx : CtxStore

/-- `offload_context`: dispatch on the `operation` string.
`store` checks the estimated size against `MAX_CONTEXT_SIZE` and inserts or
overwrites; `retrieve` looks the id up; `summarize` calls `chat_completion`
on the supplied data (temperature 0.3, 500 max tokens) and persists the
response under `"<id>_summary>"` with a freshly estimated token count;
`analyze` calls `chat_completion` (temperature 0.3, 800 max tokens) and
stores nothing; anything else yields the unknown-operation message.
`now` is the `time.time()` reading inside the nested rate-limit check and
`nowIso` the `datetime.now().isoformat()` string. -/
def offload_context (cfg : Config) (st : SState) (now : ℤ) (nowIso : String)
    (context_id context_data operation : String) (backend : BackendOutcome) :
    String × SState :=
  if operation = "store" then
    if cfg.maxCtx < estimate_tokens context_data then
      ("⚠️ Context too large (" ++ toString (estimate_tokens context_data) ++
        " tokens). Maximum is " ++ toString cfg.maxCtx ++ " tokens.", st)
    else
      ("✅ Context stored successfully. ID: " ++ context_id ++ " (" ++
        toString (estimate_tokens context_data) ++ " tokens)",
       ⟨st.rl, dictSet st.ctx context_id
          ⟨context_data, nowIso, estimate_tokens context_data⟩⟩)
  else if operation = "retrieve" then
    match dictGet st.ctx context_id with
    | none => ("❌ Context ID '" ++ context_id ++ "' not found.", st)
    | some ctx =>
        ("📋 Context retrieved:\n\n" ++ ctx.data ++ "\n\n(Stored: " ++
          ctx.timestamp ++ ", " ++ toString ctx.tokens ++ " tokens)", st)
  else if operation = "summarize" then
    ("📝 Summary created:\n\n" ++
       (chat_completion cfg st.rl now
         ("Please summarize this context:\n\n" ++ context_data)
         summarizeSystemPrompt
         backend).output,
     ⟨(chat_completion cfg st.rl now
         ("Please summarize this context:\n\n" ++ context_data)
         summarizeSystemPrompt
         backend).rl,
      dictSet st.ctx (context_id ++ "_summary")
        ⟨(chat_completion cfg st.rl now
            ("Please summarize this context:\n\n" ++ context_data)
            summarizeSystemPrompt
            backend).output,
         nowIso,
         estimate_tokens
           (chat_completion cfg st.rl now
             ("Please summarize this context:\n\n" ++ context_data)
             summarizeSystemPrompt
             backend).output⟩⟩)
  else if operation = "analyze" then
    ("🔍 Analysis:\n\n" ++
       (chat_completion cfg st.rl now
         ("Analyze this context and extract key information:\n\n" ++ context_data)
         analyzeSystemPrompt
         backend).output,
     ⟨(chat_completion cfg st.rl now
         ("Analyze this context and extract key information:\n\n" ++ context_data)
         analyzeSystemPrompt
         backend).rl,
      st.ctx⟩)
  else
    ("❌ Unknown operation: " ++ operation ++
       ". Use 'store', 'retrieve', 'summarize', or 'analyze'.", st)

/-- `clear_contexts`: the wildcard `"*"` empties the store and reports the
old size; any other pattern deletes the keys containing it as a substring
and reports how many matched. -/
def clear_contexts (m : CtxStore) (context_pattern : String) : String × CtxStore :=
  if context_pattern = "*" then
    ("🧹 Cleared all " ++ toString m.length ++ " stored contexts.", [])
  else
    ("🧹 Cleared " ++
       toString ((m.map (fun p => p.1)).filter
         (fun k => strHasSub k context_pattern)).length ++
       " contexts matching '" ++ context_pattern ++ "'.",
     ((m.map (fun p => p.1)).filter (fun k => strHasSub k context_pattern)).foldl
       (fun acc k => dictDel acc k) m)

/-- The task types `automate_menial_task` accepts. -/
def task_types : List String := ["format", "extract", "transform", "validate", "generate"]

/-- `automate_menial_task`: its own rate-limit check first, then task-type
validation, then a `chat_completion` call (which performs a second
rate-limit check of its own).  `now1` and `now2` are the two `time.time()`
readings. -/
def automate_menial_task (cfg : Config) (m : RLState) (now1 now2 : ℤ)
    (task_type task_data output_format : String) (backend : BackendOutcome) :
    String × RLState :=
  if (check_rate_limitM cfg m "default" now1).2 = false then
    (rateLimitMsg, (check_rate_limitM cfg m "default" now1).1)
  else if task_types.contains task_type = false then
    ("❌ Unknown task type: " ++ task_type ++
       ". Available types: format, extract, transform, validate, generate",
     (check_rate_limitM cfg m "default" now1).1)
  else
    ((chat_completion cfg (check_rate_limitM cfg m "default" now1).1 now2
        ("Task: " ++ task_type ++ "\n\nData:\n" ++ task_data) output_format
        backend).output,
     (chat_completion cfg (check_rate_limitM cfg m "default" now1).1 now2
        ("Task: " ++ task_type ++ "\n\nData:\n" ++ task_data) output_format
        backend).rl)

/-- The chunking performed by `for i in range(0, total_items, batch_size)`
with `batch = items[i:i + batch_size]`: the slice starting at each multiple
of `batch_size` below the length, so `ceil(len / batch_size)` slices
(`range` raises on step 0, handled separately in `batch_process`). -/
def chunkList (k : ℕ) (l : List String) : List (List String) :=
  (List.range ((l.length + k - 1) / k)).map (fun j => (l.drop (j * k)).take k)

/-- The per-chunk prompt: a header naming the chunk size and operation, then
the items enumerated from 1, one per line. -/
def batchPrompt (operation : String) (batch : List String) : String :=
  "Process these " ++ toString batch.length ++ " items with operation: " ++
    operation ++ "\n\n" ++
    String.join ((batch.enumFrom 1).map
      (fun p => toString p.1 ++ ". " ++ p.2 ++ "\n"))

/-- What `batch_process` returns: either plain text (`combine_results`
true, or an early error) or the payload of the `json.dumps` structured
result with its three fields. -/
inductive BatchOut where
  | text (s : String)
  | structured (total_items processed_items : ℕ) (results : List String)
deriving DecidableEq

/-- The loop body of `batch_process` over the chunk list.  `i` is the index
of the first item of the current chunk (the Python loop variable), `t`
counts rate-limit checks so far (each chunk performs two: its own and the
one inside `chat_completion`), `ticks` gives the `time.time()` reading of
each check, and `backends` the outcome of each chunk's backend request.
Returns the accumulated results, the rate-limiter map, and the Python `i`
at exit — the number of items belonging to completed chunks. -/
def batchGo (cfg : Config) (ticks : ℕ → ℤ) (backends : ℕ → BackendOutcome)
    (operation : String) (batch_size total_batches : ℕ) :
    List (List String) → ℕ → ℕ → RLState → List String →
    List String × RLState × ℕ
  | [], i, _, m, acc => (acc, m, i)
  | batch :: rest, i, t, m, acc =>
    if (check_rate_limitM cfg m "default" (ticks t)).2 = false then
      (acc ++ ["⚠️ Rate limit hit at batch " ++ toString (i / batch_size + 1) ++
         ". Processed " ++ toString i ++ " items."],
       (check_rate_limitM cfg m "default" (ticks t)).1, i)
    else
      batchGo cfg ticks backends operation batch_size total_batches rest
        (i + batch.length) (t + 2)
        (chat_completion cfg (check_rate_limitM cfg m "default" (ticks t)).1
          (ticks (t + 1)) (batchPrompt operation batch)
          batchSystemPrompt
          (backends (i / batch_size))).rl
        (acc ++ ["**Batch " ++ toString (i / batch_size + 1) ++ "/" ++
           toString total_batches ++ ":**\n" ++
           (chat_completion cfg (check_rate_limitM cfg m "default" (ticks t)).1
             (ticks (t + 1)) (batchPrompt operation batch)
             batchSystemPrompt
             (backends (i / batch_size))).output])

/-- `batch_process`: refuse an empty item list; partition into chunks of
`batch_size`; run the chunk loop; then either join the results with the
visible separator (`combine_results` true) or return the structured payload
whose `processed_items` field is `min(len(results) * batch_size,
total_items)`.  A zero `batch_size` makes Python's `range` raise, which the
surrounding handler renders as an error string. -/
def batch_process (cfg : Config) (m : RLState) (ticks : ℕ → ℤ)
    (backends : ℕ → BackendOutcome) (items : List String) (operation : String)
    (batch_size : ℕ) (combine_results : Bool) : BatchOut × RLState :=
  if items.isEmpty then
    (.text "❌ No items provided for batch processing.", m)
  else if batch_size = 0 then
    (.text "Error in batch processing: range() arg 3 must not be zero", m)
  else
    if combine_results then
      (.text (String.intercalate "\n\n---\n\n"
        (batchGo cfg ticks backends operation batch_size
          ((items.length + batch_size - 1) / batch_size)
          (chunkList batch_size items) 0 0 m []).1),
       (batchGo cfg ticks backends operation batch_size
          ((items.length + batch_size - 1) / batch_size)
          (chunkList batch_size items) 0 0 m []).2.1)
    else
      (.structured items.length
        (min ((batchGo cfg ticks backends operation batch_size
            ((items.length + batch_size - 1) / batch_size)
            (chunkList batch_size items) 0 0 m []).1.length * batch_size)
          items.length)
        (batchGo cfg ticks backends operation batch_size
          ((items.length + batch_size - 1) / batch_size)
          (chunkList batch_size items) 0 0 m []).1,
       (batchGo cfg ticks backends operation batch_size
          ((items.length + batch_size - 1) / batch_size)
          (chunkList batch_size items) 0 0 m []).2.1)

/-- A sequence of `check_rate_limit` calls on one client's list, recording
each call's timestamp and admission decision. -/
def runAdmits (cfg : Config) : List ℤ → List ℤ → List (ℤ × Bool)
  | _, [] => []
  | st, t :: ts =>
    (t, (check_rate_limit cfg st t).2) ::
      runAdmits cfg (check_rate_limit cfg st t).1 ts

/-- A sequence of `check_rate_limit(client_id)` calls on the whole
`rate_limiter` map, each given as a client id and a timestamp. -/
def runAdmitsM (cfg : Config) : RLState → List (String × ℤ) → List (String × ℤ × Bool)
  | _, [] => []
  | m, (c, t) :: rest =>
    (c, t, (check_rate_limitM cfg m c t).2) ::
      runAdmitsM cfg (check_rate_limitM cfg m c t).1 rest

/-- Whether a timestamp lies in the sliding half-open interval
`(x, x + WINDOW]`. -/
def inWin (cfg : Config) (x s : ℤ) : Bool :=
  decide (x < s) && decide (s ≤ x + cfg.window)

/-- How many admitted calls of a trace carry a timestamp inside the sliding
interval `(x, x + WINDOW]`. -/
def grantedIn (cfg : Config) (x : ℤ) (out : List (ℤ × Bool)) : ℕ :=
  out.countP (fun p => p.2 && inWin cfg x p.1)

/-- A trace whose calls all happen after the end of the interval
`(x, x + WINDOW]` contributes no admitted timestamps to it. -/
lemma grantedIn_zero_of_late (cfg : Config) (x : ℤ) :
    ∀ ts st, (∀ u ∈ ts, x + cfg.window < u) →
      grantedIn cfg x (runAdmits cfg st ts) = 0 := by
  intro ts
  induction ts with
  | nil => intro st _; rfl
  | cons t ts ih =>
    intro st h
    have ht : x + cfg.window < t := h t (by simp)
    have hwin : inWin cfg x t = false := by
      simp only [inWin, Bool.and_eq_false_iff, decide_eq_false_iff_not, not_le]
      right
      omega
    simp only [runAdmits, grantedIn, List.countP_cons, hwin, Bool.and_false,
      if_false]
    exact ih _ (fun u hu => h u (by simp [hu]))

/-- Pruning at a call time inside the interval's reach removes only
timestamps at or below `x`, so the count of interval timestamps is
unchanged. -/
lemma prune_countP_inWin (cfg : Config) (x t : ℤ) (st : List ℤ)
    (hx : t ≤ x + cfg.window) :
    (prune cfg st t).countP (inWin cfg x) = st.countP (inWin cfg x) := by
  unfold prune
  rw [List.countP_filter]
  apply List.countP_congr
  intro s _
  by_cases hs : inWin cfg x s = true
  · have hxs : x < s := by
      have := hs
      simp only [inWin, Bool.and_eq_true, decide_eq_true_eq] at this
      exact this.1
    have : decide (t - s < cfg.window) = true := by
      simp only [decide_eq_true_eq]
      omega
    simp [hs, this]
  · simp only [Bool.not_eq_true] at hs
    simp [hs]

/-- A refused call never counts towards `grantedIn`. -/
lemma grantedIn_cons_false (cfg : Config) (x t : ℤ) (out : List (ℤ × Bool)) :
    grantedIn cfg x ((t, false) :: out) = grantedIn cfg x out := by
  simp [grantedIn, List.countP_cons]

/-- An admitted call counts towards `grantedIn` exactly when its timestamp
lies in the interval. -/
lemma grantedIn_cons_true (cfg : Config) (x t : ℤ) (out : List (ℤ × Bool)) :
    grantedIn cfg x ((t, true) :: out) =
      grantedIn cfg x out + (if inWin cfg x t = true then 1 else 0) := by
  simp [grantedIn, List.countP_cons]

/-- Core sliding-window invariant of `check_rate_limit` along a trace with
non-decreasing call times: the admitted calls inside `(x, x + WINDOW]`,
together with the state entries already inside it, never exceed
`MAX_REQUESTS`. -/
lemma runAdmits_inWin_bound (cfg : Config) (x : ℤ) :
    ∀ ts st, ts.Chain' (· ≤ ·) →
      st.countP (inWin cfg x) ≤ cfg.maxReq →
      grantedIn cfg x (runAdmits cfg st ts) + st.countP (inWin cfg x) ≤
        cfg.maxReq := by
  intro ts
  induction ts with
  | nil =>
    intro st _ hst
    simpa [runAdmits, grantedIn] using hst
  | cons t ts ih =>
    intro st hchain hst
    have hchain' : ts.Chain' (· ≤ ·) := hchain.tail
    by_cases hlate : x + cfg.window < t
    · have hall : ∀ u ∈ t :: ts, x + cfg.window < u := by
        intro u hu
        rcases List.mem_cons.mp hu with rfl | hu
        · exact hlate
        · have hpw : (t :: ts).Pairwise (· ≤ ·) :=
            List.chain'_iff_pairwise.mp hchain
          have : t ≤ u := (List.pairwise_cons.mp hpw).1 u hu
          omega
      rw [grantedIn_zero_of_late cfg x (t :: ts) st hall]
      omega
    · push_neg at hlate
      have hkeep : (prune cfg st t).countP (inWin cfg x) =
          st.countP (inWin cfg x) := prune_countP_inWin cfg x t st hlate
      by_cases hden : cfg.maxReq ≤ (prune cfg st t).length
      · have hstep : runAdmits cfg st (t :: ts) =
            (t, false) :: runAdmits cfg (prune cfg st t) ts := by
          simp [runAdmits, check_rate_limit, hden]
        rw [hstep, grantedIn_cons_false]
        have := ih (prune cfg st t) hchain' (by omega)
        omega
      · push_neg at hden
        have hstep : runAdmits cfg st (t :: ts) =
            (t, true) :: runAdmits cfg (prune cfg st t ++ [t]) ts := by
          simp [runAdmits, check_rate_limit, Nat.not_le.mpr hden]
        rw [hstep, grantedIn_cons_true]
        have hlen : (prune cfg st t).countP (inWin cfg x) ≤
            (prune cfg st t).length := List.countP_le_length _
        have happ : (prune cfg st t ++ [t]).countP (inWin cfg x) =
            (prune cfg st t).countP (inWin cfg x) +
              (if inWin cfg x t = true then 1 else 0) := by
          rw [List.countP_append]
          simp [List.countP_cons]
        have hite : (if inWin cfg x t = true then 1 else 0) ≤ 1 := by
          by_cases hwt : inWin cfg x t = true <;> simp [hwt]
        have hbound : (prune cfg st t ++ [t]).countP (inWin cfg x) ≤
            cfg.maxReq := by omega
        have := ih (prune cfg st t ++ [t]) hchain' hbound
        omega

/-- Admission calls for one client project onto the single-list trace run
from that client's entry: `check_rate_limit(c)` reads and writes only
`rate_limiter[c]`. -/
lemma runAdmitsM_proj (cfg : Config) (c : String) :
    ∀ calls m,
      ((runAdmitsM cfg m calls).filter (fun e => e.1 == c)).map (fun e => e.2) =
        runAdmits cfg (m c)
          ((calls.filter (fun e => e.1 == c)).map (fun e => e.2)) := by
  intro calls
  induction calls with
  | nil => intro m; rfl
  | cons e rest ih =>
    intro m
    obtain ⟨c', t⟩ := e
    by_cases hc : c' = c
    · subst hc
      have hupd : (check_rate_limitM cfg m c' t).1 c' =
          (check_rate_limit cfg (m c') t).1 := by
        simp [check_rate_limitM, updMap]
      simp only [runAdmitsM]
      simp only [List.filter_cons, beq_self_eq_true, if_true, List.map_cons]
      rw [ih, hupd]
      rfl
    · have hbeq : (c' == c) = false := by
        simp only [beq_eq_false_iff_ne, ne_eq]
        exact hc
      simp only [runAdmitsM]
      simp only [List.filter_cons, hbeq, Bool.false_eq_true, if_false]
      rw [ih]
      have hupd : (check_rate_limitM cfg m c' t).1 c = m c := by
        simp only [check_rate_limitM, updMap]
        rw [if_neg (Ne.symm hc)]
      rw [hupd]

/-- C1: for every client id and every sequence of `check_rate_limit` calls
(made with non-decreasing `time.time()` readings), the number of admitted
calls whose timestamps lie in any sliding interval `(x, x + WINDOW]` never
exceeds `MAX_REQUESTS`; and each call prunes the window to the timestamps
with `now - t < WINDOW`, refuses without recording when at least
`MAX_REQUESTS` remain, and otherwise appends `now` and admits. -/
theorem C1_sliding_window (cfg : Config) (calls : List (String × ℤ))
    (c : String) (x : ℤ)
    (hmono : (calls.map (fun e => e.2)).Chain' (· ≤ ·)) :
    grantedIn cfg x
      (((runAdmitsM cfg (fun _ => []) calls).filter (fun e => e.1 == c)).map
        (fun e => e.2)) ≤ cfg.maxReq ∧
    ∀ st now, check_rate_limit cfg st now =
        if cfg.maxReq ≤ (prune cfg st now).length then (prune cfg st now, false)
        else (prune cfg st now ++ [now], true) := by
  constructor
  · rw [runAdmitsM_proj]
    have hsub : ((calls.filter (fun e => e.1 == c)).map (fun e => e.2)).Sublist
        (calls.map (fun e => e.2)) :=
      (List.filter_sublist _).map _
    have hchain :
        ((calls.filter (fun e => e.1 == c)).map (fun e => e.2)).Chain' (· ≤ ·) :=
      hmono.sublist hsub
    have hb := runAdmits_inWin_bound cfg x
      ((calls.filter (fun e => e.1 == c)).map (fun e => e.2)) [] hchain
      (by simp)
    simpa using hb
  · intro st now
    rfl

/-- Witness for C1 at a concrete three-call trace of two clients. -/
theorem C1_sliding_window_witness :
    grantedIn defaultConfig 0
      (((runAdmitsM defaultConfig (fun _ => [])
          [("a", 0), ("b", 1), ("a", 2)]).filter (fun e => e.1 == "a")).map
        (fun e => e.2)) ≤ defaultConfig.maxReq :=
  (C1_sliding_window defaultConfig [("a", 0), ("b", 1), ("a", 2)] "a" 0
    (by simp)).1

/-- C6: every `chat_completion` call consults the rate limiter before any
backend request; a denial yields the rate-limit message with no backend
request issued, and a grant appends exactly one admission record (`now`)
to the default client's window — an equation independent of the backend
outcome, so the record stays consumed even when the backend call fails. -/
theorem C6_gateway_admission (cfg : Config) (m : RLState) (now : ℤ)
    (prompt system_prompt : String) (backend : BackendOutcome) :
    ((check_rate_limitM cfg m "default" now).2 = false →
      chat_completion cfg m now prompt system_prompt backend =
        ⟨rateLimitMsg, (check_rate_limitM cfg m "default" now).1, false⟩) ∧
    ((check_rate_limitM cfg m "default" now).2 = true →
      (chat_completion cfg m now prompt system_prompt backend).backendCalled =
          true ∧
      (chat_completion cfg m now prompt system_prompt backend).rl =
        updMap m "default" (prune cfg (m "default") now ++ [now])) := by
  constructor
  · intro h
    simp [chat_completion, h]
  · intro h
    have hden : ¬ cfg.maxReq ≤ (prune cfg (m "default") now).length := by
      intro hc
      simp [check_rate_limitM, check_rate_limit, hc] at h
    refine ⟨by simp [chat_completion, h], ?_⟩
    simp [chat_completion, h, check_rate_limitM, check_rate_limit, hden]

/-- Witness for C6: a denial under a zero-budget configuration and a grant
whose admission record survives a failing backend call. -/
theorem C6_gateway_admission_witness :
    chat_completion ⟨60, 0, 32000⟩ (fun _ => []) 0 "p" "" (.ok "hi") =
      ⟨rateLimitMsg, (check_rate_limitM ⟨60, 0, 32000⟩ (fun _ => [])
        "default" 0).1, false⟩ ∧
    (chat_completion defaultConfig (fun _ => []) 0 "p" "" (.httpError 500)).rl =
      updMap (fun _ => []) "default" (prune defaultConfig [] 0 ++ [0]) :=
  ⟨(C6_gateway_admission ⟨60, 0, 32000⟩ (fun _ => []) 0 "p" "" (.ok "hi")).1
      (by decide),
   ((C6_gateway_admission defaultConfig (fun _ => []) 0 "p" ""
      (.httpError 500)).2 (by decide)).2⟩

/-- Updating the map at one client leaves every other client's window
untouched. -/
lemma updMap_ne (m : RLState) (c : String) (w : List ℤ) (k : String)
    (h : k ≠ c) : updMap m c w k = m k :=
  if_neg h

/-- A rate-limit check for one client leaves every other client's window
untouched. -/
lemma check_rate_limitM_ne (cfg : Config) (m : RLState) (c : String) (now : ℤ)
    (k : String) (h : k ≠ c) : (check_rate_limitM cfg m c now).1 k = m k :=
  updMap_ne m c _ k h

/-- `chat_completion` writes only the default client's window. -/
lemma chat_completion_rl_ne (cfg : Config) (m : RLState) (now : ℤ)
    (prompt system_prompt : String) (backend : BackendOutcome) (c : String)
    (h : c ≠ "default") :
    (chat_completion cfg m now prompt system_prompt backend).rl c = m c := by
  by_cases hb : (check_rate_limitM cfg m "default" now).2 <;>
    simp [chat_completion, hb, check_rate_limitM_ne cfg m "default" now c h]

/-- The decision and the default-client window produced by a rate-limit
check depend only on the default-client window read. -/
lemma check_rate_limitM_default_congr (cfg : Config) (m1 m2 : RLState) (now : ℤ)
    (h : m1 "default" = m2 "default") :
    (check_rate_limitM cfg m1 "default" now).2 =
        (check_rate_limitM cfg m2 "default" now).2 ∧
    (check_rate_limitM cfg m1 "default" now).1 "default" =
        (check_rate_limitM cfg m2 "default" now).1 "default" := by
  constructor <;> simp [check_rate_limitM, updMap, h]

/-- The output, default-client window and backend-called flag of
`chat_completion` depend only on the default-client window read. -/
lemma chat_completion_default_congr (cfg : Config) (m1 m2 : RLState) (now : ℤ)
    (prompt system_prompt : String) (backend : BackendOutcome)
    (h : m1 "default" = m2 "default") :
    (chat_completion cfg m1 now prompt system_prompt backend).output =
        (chat_completion cfg m2 now prompt system_prompt backend).output ∧
    (chat_completion cfg m1 now prompt system_prompt backend).rl "default" =
        (chat_completion cfg m2 now prompt system_prompt backend).rl "default" ∧
    (chat_completion cfg m1 now prompt system_prompt backend).backendCalled =
        (chat_completion cfg m2 now prompt system_prompt backend).backendCalled := by
  obtain ⟨h2, h1⟩ := check_rate_limitM_default_congr cfg m1 m2 now h
  by_cases hb : (check_rate_limitM cfg m1 "default" now).2 = true
  · have hb2 : (check_rate_limitM cfg m2 "default" now).2 = true := h2 ▸ hb
    refine ⟨?_, ?_, ?_⟩ <;> simp [chat_completion, hb, hb2, h1]
  · have hb2 : ¬ (check_rate_limitM cfg m2 "default" now).2 = true := h2 ▸ hb
    refine ⟨?_, ?_, ?_⟩ <;> simp [chat_completion, hb, hb2, h1]

/-- The batch loop writes only the default client's window. -/
lemma batchGo_rl_ne (cfg : Config) (ticks : ℕ → ℤ)
    (backends : ℕ → BackendOutcome) (op : String) (bs tb : ℕ) :
    ∀ chunks i t m acc c, c ≠ "default" →
      (batchGo cfg ticks backends op bs tb chunks i t m acc).2.1 c = m c := by
  intro chunks
  induction chunks with
  | nil => intro i t m acc c h; rfl
  | cons batch rest ih =>
    intro i t m acc c h
    by_cases hb : (check_rate_limitM cfg m "default" (ticks t)).2 = false
    · simp only [batchGo, hb, if_true]
      exact check_rate_limitM_ne cfg m "default" (ticks t) c h
    · simp only [batchGo, hb, Bool.true_eq_false, if_false]
      rw [ih _ _ _ _ c h]
      rw [chat_completion_rl_ne _ _ _ _ _ _ _ h]
      exact check_rate_limitM_ne cfg m "default" (ticks t) c h

/-- The batch loop's results, default-client window and processed count
depend only on the default-client window read. -/
lemma batchGo_default_congr (cfg : Config) (ticks : ℕ → ℤ)
    (backends : ℕ → BackendOutcome) (op : String) (bs tb : ℕ) :
    ∀ chunks i t acc m1 m2, m1 "default" = m2 "default" →
      (batchGo cfg ticks backends op bs tb chunks i t m1 acc).1 =
          (batchGo cfg ticks backends op bs tb chunks i t m2 acc).1 ∧
      (batchGo cfg ticks backends op bs tb chunks i t m1 acc).2.1 "default" =
          (batchGo cfg ticks backends op bs tb chunks i t m2 acc).2.1 "default" ∧
      (batchGo cfg ticks backends op bs tb chunks i t m1 acc).2.2 =
          (batchGo cfg ticks backends op bs tb chunks i t m2 acc).2.2 := by
  intro chunks
  induction chunks with
  | nil =>
    intro i t acc m1 m2 h
    exact ⟨rfl, h, rfl⟩
  | cons batch rest ih =>
    intro i t acc m1 m2 h
    obtain ⟨h2, h1⟩ := check_rate_limitM_default_congr cfg m1 m2 (ticks t) h
    by_cases hb : (check_rate_limitM cfg m1 "default" (ticks t)).2 = false
    · have hb2 : (check_rate_limitM cfg m2 "default" (ticks t)).2 = false :=
        h2 ▸ hb
      simp only [batchGo, hb, hb2, if_true]
      exact ⟨by trivial, h1, by trivial⟩
    · have hb2 : ¬ (check_rate_limitM cfg m2 "default" (ticks t)).2 = false :=
        h2 ▸ hb
      simp only [batchGo, hb, hb2, Bool.true_eq_false, if_false]
      obtain ⟨ho, hr, _⟩ := chat_completion_default_congr cfg
        (check_rate_limitM cfg m1 "default" (ticks t)).1
        (check_rate_limitM cfg m2 "default" (ticks t)).1 (ticks (t + 1))
        (batchPrompt op batch)
        batchSystemPrompt
        (backends (i / bs)) h1
      rw [ho]
      exact ih _ _ _ _ _ hr

/-- `automate_menial_task` writes only the default client's window. -/
lemma automate_rl_ne (cfg : Config) (m : RLState) (n1 n2 : ℤ)
    (tt td fmt : String) (b : BackendOutcome) (c : String)
    (h : c ≠ "default") :
    (automate_menial_task cfg m n1 n2 tt td fmt b).2 c = m c := by
  by_cases h1 : (check_rate_limitM cfg m "default" n1).2 = false <;>
    by_cases h2 : tt ∈ task_types <;>
      simp [automate_menial_task, h1, h2, chat_completion_rl_ne,
        check_rate_limitM_ne, h]

/-- `batch_process` writes only the default client's window. -/
lemma batch_process_rl_ne (cfg : Config) (m : RLState) (ticks : ℕ → ℤ)
    (backends : ℕ → BackendOutcome) (items : List String) (op : String)
    (bs : ℕ) (comb : Bool) (c : String) (h : c ≠ "default") :
    (batch_process cfg m ticks backends items op bs comb).2 c = m c := by
  by_cases he : items.isEmpty <;> by_cases hbs : bs = 0 <;>
    by_cases hc : comb = true <;>
      simp [batch_process, he, hbs, hc, batchGo_rl_ne, h]

/-- The result text of `automate_menial_task` and its default window depend
only on the default client's window read. -/
lemma automate_default_congr (cfg : Config) (n1 n2 : ℤ) (tt td fmt : String)
    (b : BackendOutcome) (m1 m2 : RLState) (h : m1 "default" = m2 "default") :
    (automate_menial_task cfg m1 n1 n2 tt td fmt b).1 =
        (automate_menial_task cfg m2 n1 n2 tt td fmt b).1 ∧
    (automate_menial_task cfg m1 n1 n2 tt td fmt b).2 "default" =
        (automate_menial_task cfg m2 n1 n2 tt td fmt b).2 "default" := by
  obtain ⟨h2, h1⟩ := check_rate_limitM_default_congr cfg m1 m2 n1 h
  obtain ⟨ho, hr, _⟩ := chat_completion_default_congr cfg
    (check_rate_limitM cfg m1 "default" n1).1
    (check_rate_limitM cfg m2 "default" n1).1 n2
    ("Task: " ++ tt ++ "\n\nData:\n" ++ td) fmt b h1
  by_cases hb : (check_rate_limitM cfg m1 "default" n1).2 = false
  · have hb2 : (check_rate_limitM cfg m2 "default" n1).2 = false := h2 ▸ hb
    constructor <;> simp [automate_menial_task, hb, hb2, h1]
  · have hb2 : ¬ (check_rate_limitM cfg m2 "default" n1).2 = false := h2 ▸ hb
    by_cases ht : tt ∈ task_types <;>
      constructor <;>
        simp [automate_menial_task, hb, hb2, ht, h1, ho, hr]

/-- The result of `batch_process` and its default window depend only on the
default client's window read. -/
lemma batch_process_default_congr (cfg : Config) (ticks : ℕ → ℤ)
    (backends : ℕ → BackendOutcome) (items : List String) (op : String)
    (bs : ℕ) (comb : Bool) (m1 m2 : RLState)
    (h : m1 "default" = m2 "default") :
    (batch_process cfg m1 ticks backends items op bs comb).1 =
        (batch_process cfg m2 ticks backends items op bs comb).1 ∧
    (batch_process cfg m1 ticks backends items op bs comb).2 "default" =
        (batch_process cfg m2 ticks backends items op bs comb).2 "default" := by
  obtain ⟨hres, hdef, hcnt⟩ := batchGo_default_congr cfg ticks backends op bs
    ((items.length + bs - 1) / bs) (chunkList bs items) 0 0 [] m1 m2 h
  by_cases he : items.isEmpty <;> by_cases hbs : bs = 0 <;>
    by_cases hc : comb = true <;>
      constructor <;> simp [batch_process, he, hbs, hc, hres, hdef, h]

/-- C10: every rate-limit admission check runs under the single default
client id, so `chat_completion`, `automate_menial_task` and `batch_process`
share one process-wide budget: each leaves every other client's window
untouched, and each one's observable result and default window depend only
on the default client's window. -/
theorem C10_default_client_budget :
    (∀ cfg m now prompt sys b c, c ≠ "default" →
      (chat_completion cfg m now prompt sys b).rl c = m c) ∧
    (∀ cfg m n1 n2 tt td fmt b c, c ≠ "default" →
      (automate_menial_task cfg m n1 n2 tt td fmt b).2 c = m c) ∧
    (∀ cfg m ticks backends items op bs comb c, c ≠ "default" →
      (batch_process cfg m ticks backends items op bs comb).2 c = m c) ∧
    (∀ cfg m1 m2 now prompt sys b, m1 "default" = m2 "default" →
      (chat_completion cfg m1 now prompt sys b).output =
        (chat_completion cfg m2 now prompt sys b).output ∧
      (chat_completion cfg m1 now prompt sys b).rl "default" =
        (chat_completion cfg m2 now prompt sys b).rl "default") ∧
    (∀ cfg m1 m2 n1 n2 tt td fmt b, m1 "default" = m2 "default" →
      (automate_menial_task cfg m1 n1 n2 tt td fmt b).1 =
        (automate_menial_task cfg m2 n1 n2 tt td fmt b).1 ∧
      (automate_menial_task cfg m1 n1 n2 tt td fmt b).2 "default" =
        (automate_menial_task cfg m2 n1 n2 tt td fmt b).2 "default") ∧
    (∀ cfg m1 m2 ticks backends items op bs comb,
      m1 "default" = m2 "default" →
      (batch_process cfg m1 ticks backends items op bs comb).1 =
        (batch_process cfg m2 ticks backends items op bs comb).1 ∧
      (batch_process cfg m1 ticks backends items op bs comb).2 "default" =
        (batch_process cfg m2 ticks backends items op bs comb).2 "default") := by
  refine ⟨?_, ?_, ?_, ?_, ?_, ?_⟩
  · intro cfg m now prompt sys b c h
    exact chat_completion_rl_ne cfg m now prompt sys b c h
  · intro cfg m n1 n2 tt td fmt b c h
    exact automate_rl_ne cfg m n1 n2 tt td fmt b c h
  · intro cfg m ticks backends items op bs comb c h
    exact batch_process_rl_ne cfg m ticks backends items op bs comb c h
  · intro cfg m1 m2 now prompt sys b h
    obtain ⟨ho, hr, _⟩ :=
      chat_completion_default_congr cfg m1 m2 now prompt sys b h
    exact ⟨ho, hr⟩
  · intro cfg m1 m2 n1 n2 tt td fmt b h
    exact automate_default_congr cfg n1 n2 tt td fmt b m1 m2 h
  · intro cfg m1 m2 ticks backends items op bs comb h
    exact batch_process_default_congr cfg ticks backends items op bs comb m1 m2 h

/-- Witness for C10: a `chat_completion` call and a `batch_process` call
leave a foreign client's window untouched. -/
theorem C10_default_client_budget_witness :
    (chat_completion defaultConfig (fun _ => []) 0 "p" "" (.ok "x")).rl
        "client-a" = [] ∧
    (batch_process defaultConfig (fun _ => []) (fun _ => 0) (fun _ => .ok "x")
        ["i"] "op" 5 true).2 "client-a" = [] :=
  ⟨C10_default_client_budget.1 defaultConfig (fun _ => []) 0 "p" "" (.ok "x")
      "client-a" (by decide),
   C10_default_client_budget.2.2.1 defaultConfig (fun _ => []) (fun _ => 0)
      (fun _ => .ok "x") ["i"] "op" 5 true "client-a" (by decide)⟩

/-- Looking up a key just written returns the written entry, whether the
assignment overwrote in place or appended. -/
lemma dictGet_dictSet_same (m : CtxStore) (k : String) (v : ContextEntry) :
    dictGet (dictSet m k v) k = some v := by
  unfold dictGet dictSet
  by_cases hh : dictHas m k = true
  · rw [if_pos hh]
    have hfind : (m.find? (fun p => p.1 == k)).isSome := by
      rw [List.find?_isSome]
      obtain ⟨q, hq, hpq⟩ := List.any_eq_true.mp hh
      exact ⟨q, hq, hpq⟩
    obtain ⟨q, hq⟩ := Option.isSome_iff_exists.mp hfind
    have hpq := List.find?_some hq
    have hcomp : ((fun p : String × ContextEntry => p.1 == k) ∘
        (fun p => if p.1 == k then (k, v) else p)) =
        fun p : String × ContextEntry => p.1 == k := by
      funext p
      by_cases hp : p.1 = k <;> simp [hp]
    rw [List.find?_map, hcomp, hq]
    have hq1 : q.1 = k := by simpa using hpq
    simp [hq1]
  · rw [if_neg hh]
    have hnone : m.find? (fun p => p.1 == k) = none := by
      rw [List.find?_eq_none]
      intro x hx hc
      exact hh (List.any_eq_true.mpr ⟨x, hx, hc⟩)
    rw [List.find?_append, hnone]
    simp

/-- Every entry of the store after an assignment is the written pair or an
entry that was already present. -/
lemma mem_dictSet (m : CtxStore) (k : String) (v : ContextEntry)
    (e : String × ContextEntry) (he : e ∈ dictSet m k v) :
    e = (k, v) ∨ e ∈ m := by
  unfold dictSet at he
  by_cases hh : dictHas m k = true
  · rw [if_pos hh] at he
    obtain ⟨p, hp, hfe⟩ := List.mem_map.mp he
    by_cases hpk : (p.1 == k) = true
    · left
      rw [← hfe]
      simp [hpk]
    · right
      rw [← hfe]
      simpa [hpk] using hp
  · rw [if_neg hh] at he
    rcases List.mem_append.mp he with h1 | h1
    · right; exact h1
    · left; simpa using h1

/-- Deleting a list of keys one after another filters out exactly the
entries whose key occurs in the list. -/
lemma foldl_dictDel (ks : List String) : ∀ m : CtxStore,
    ks.foldl (fun acc k => dictDel acc k) m =
      m.filter (fun e => !(ks.contains e.1)) := by
  induction ks with
  | nil => intro m; simp
  | cons k ks ih =>
    intro m
    simp only [List.foldl_cons]
    rw [ih (dictDel m k)]
    unfold dictDel
    rw [List.filter_filter]
    apply List.filter_congr
    intro e _
    by_cases hek : e.1 = k <;> simp [List.contains_cons, hek]

/-- The `store` branch on oversized data: error text, state untouched. -/
lemma offload_store_reject (cfg : Config) (st : SState) (now : ℤ)
    (nowIso id data : String) (backend : BackendOutcome)
    (h : cfg.maxCtx < estimate_tokens data) :
    offload_context cfg st now nowIso id data "store" backend =
      ("⚠️ Context too large (" ++ toString (estimate_tokens data) ++
        " tokens). Maximum is " ++ toString cfg.maxCtx ++ " tokens.", st) := by
  simp [offload_context, h]

/-- The `store` branch on accepted data: success text naming the estimated
token count, and the entry written under the id. -/
lemma offload_store_accept (cfg : Config) (st : SState) (now : ℤ)
    (nowIso id data : String) (backend : BackendOutcome)
    (h : estimate_tokens data ≤ cfg.maxCtx) :
    offload_context cfg st now nowIso id data "store" backend =
      ("✅ Context stored successfully. ID: " ++ id ++ " (" ++
        toString (estimate_tokens data) ++ " tokens)",
       ⟨st.rl, dictSet st.ctx id ⟨data, nowIso, estimate_tokens data⟩⟩) := by
  simp [offload_context, Nat.not_lt.mpr h]

/-- The `retrieve` branch on a present id. -/
lemma offload_retrieve_found (cfg : Config) (st : SState) (now : ℤ)
    (nowIso id data : String) (backend : BackendOutcome) (e : ContextEntry)
    (h : dictGet st.ctx id = some e) :
    offload_context cfg st now nowIso id data "retrieve" backend =
      ("📋 Context retrieved:\n\n" ++ e.data ++ "\n\n(Stored: " ++
        e.timestamp ++ ", " ++ toString e.tokens ++ " tokens)", st) := by
  simp [offload_context, h]

/-- The `retrieve` branch on an absent id. -/
lemma offload_retrieve_missing (cfg : Config) (st : SState) (now : ℤ)
    (nowIso id data : String) (backend : BackendOutcome)
    (h : dictGet st.ctx id = none) :
    offload_context cfg st now nowIso id data "retrieve" backend =
      ("❌ Context ID '" ++ id ++ "' not found.", st) := by
  simp [offload_context, h]

/-- The `summarize` branch as one equation: it never consults the store for
the source id; it runs the gateway on the supplied data and persists the
response under `"<id>_summary"` with a fresh estimate and no size check. -/
lemma offload_summarize_eq (cfg : Config) (st : SState) (now : ℤ)
    (nowIso id data : String) (backend : BackendOutcome) :
    offload_context cfg st now nowIso id data "summarize" backend =
      ("📝 Summary created:\n\n" ++
        (chat_completion cfg st.rl now
          ("Please summarize this context:\n\n" ++ data)
          summarizeSystemPrompt
          backend).output,
       ⟨(chat_completion cfg st.rl now
          ("Please summarize this context:\n\n" ++ data)
          summarizeSystemPrompt
          backend).rl,
        dictSet st.ctx (id ++ "_summary")
          ⟨(chat_completion cfg st.rl now
              ("Please summarize this context:\n\n" ++ data)
              summarizeSystemPrompt
              backend).output,
           nowIso,
           estimate_tokens (chat_completion cfg st.rl now
              ("Please summarize this context:\n\n" ++ data)
              summarizeSystemPrompt
              backend).output⟩⟩) := by
  rfl

/-- The `analyze` branch as one equation: it never consults the store for
the source id and leaves the context store untouched. -/
lemma offload_analyze_eq (cfg : Config) (st : SState) (now : ℤ)
    (nowIso id data : String) (backend : BackendOutcome) :
    offload_context cfg st now nowIso id data "analyze" backend =
      ("🔍 Analysis:\n\n" ++
        (chat_completion cfg st.rl now
          ("Analyze this context and extract key information:\n\n" ++ data)
          analyzeSystemPrompt
          backend).output,
       ⟨(chat_completion cfg st.rl now
          ("Analyze this context and extract key information:\n\n" ++ data)
          analyzeSystemPrompt
          backend).rl,
        st.ctx⟩) := by
  rfl

/-- C5: a `store` whose estimated token count exceeds `MAX_CONTEXT_SIZE`
fails with the context-too-large message and leaves the whole state (store
included) unchanged; otherwise it inserts or overwrites the entry under the
id and reports the estimated token count. -/
theorem C5_store_semantics (cfg : Config) (st : SState) (now : ℤ)
    (nowIso id data : String) (backend : BackendOutcome) :
    (cfg.maxCtx < estimate_tokens data →
      offload_context cfg st now nowIso id data "store" backend =
        ("⚠️ Context too large (" ++ toString (estimate_tokens data) ++
          " tokens). Maximum is " ++ toString cfg.maxCtx ++ " tokens.", st)) ∧
    (estimate_tokens data ≤ cfg.maxCtx →
      offload_context cfg st now nowIso id data "store" backend =
        ("✅ Context stored successfully. ID: " ++ id ++ " (" ++
          toString (estimate_tokens data) ++ " tokens)",
         ⟨st.rl, dictSet st.ctx id ⟨data, nowIso, estimate_tokens data⟩⟩) ∧
      dictGet (dictSet st.ctx id ⟨data, nowIso, estimate_tokens data⟩) id =
        some ⟨data, nowIso, estimate_tokens data⟩) :=
  ⟨fun h => offload_store_reject cfg st now nowIso id data backend h,
   fun h => ⟨offload_store_accept cfg st now nowIso id data backend h,
     dictGet_dictSet_same st.ctx id ⟨data, nowIso, estimate_tokens data⟩⟩⟩

/-- Witness for C5: an oversized payload is rejected under a 1-token limit
and an 8-character payload is stored under the default limit. -/
theorem C5_store_semantics_witness :
    offload_context ⟨60, 30, 1⟩ ⟨fun _ => [], []⟩ 0 "T" "big"
        "abcdefgh" "store" (.ok "r") =
      ("⚠️ Context too large (" ++ toString (2 : ℕ) ++
        " tokens). Maximum is " ++ toString (1 : ℕ) ++ " tokens.",
       ⟨fun _ => [], []⟩) ∧
    offload_context defaultConfig ⟨fun _ => [], []⟩ 0 "T" "proj1" "abcdefgh"
        "store" (.ok "r") =
      ("✅ Context stored successfully. ID: proj1 (" ++ toString (2 : ℕ) ++
        " tokens)",
       ⟨(fun _ => []),
        dictSet [] "proj1" ⟨"abcdefgh", "T", estimate_tokens "abcdefgh"⟩⟩) :=
  ⟨(C5_store_semantics ⟨60, 30, 1⟩ ⟨fun _ => [], []⟩ 0 "T" "big"
      "abcdefgh" (.ok "r")).1 (by decide),
   ((C5_store_semantics defaultConfig ⟨fun _ => [], []⟩ 0 "T" "proj1"
      "abcdefgh" (.ok "r")).2 (by decide)).1⟩

/-- C9: storing accepted data and immediately retrieving the same id
returns the exact original data and the token count that the store
reported. -/
theorem C9_store_retrieve_roundtrip (cfg : Config) (st : SState)
    (now now2 : ℤ) (nowIso iso2 id data other : String)
    (backend backend2 : BackendOutcome)
    (h : estimate_tokens data ≤ cfg.maxCtx) :
    offload_context cfg
        (offload_context cfg st now nowIso id data "store" backend).2
        now2 iso2 id other "retrieve" backend2 =
      ("📋 Context retrieved:\n\n" ++ data ++ "\n\n(Stored: " ++ nowIso ++
        ", " ++ toString (estimate_tokens data) ++ " tokens)",
       (offload_context cfg st now nowIso id data "store" backend).2) := by
  rw [offload_store_accept cfg st now nowIso id data backend h]
  exact offload_retrieve_found cfg _ now2 iso2 id other backend2
    ⟨data, nowIso, estimate_tokens data⟩
    (dictGet_dictSet_same st.ctx id ⟨data, nowIso, estimate_tokens data⟩)

/-- Witness for C9: a stored 8-character payload round-trips. -/
theorem C9_store_retrieve_roundtrip_witness :
    offload_context defaultConfig
        (offload_context defaultConfig ⟨fun _ => [], []⟩ 0 "T" "proj1"
          "abcdefgh" "store" (.ok "r")).2 1 "T2" "proj1" "zz" "retrieve"
        (.ok "r2") =
      ("📋 Context retrieved:\n\nabcdefgh\n\n(Stored: T, " ++
        toString (estimate_tokens "abcdefgh") ++ " tokens)",
       (offload_context defaultConfig ⟨fun _ => [], []⟩ 0 "T" "proj1"
          "abcdefgh" "store" (.ok "r")).2) :=
  C9_store_retrieve_roundtrip defaultConfig ⟨fun _ => [], []⟩ 0 1 "T" "T2"
    "proj1" "abcdefgh" "zz" (.ok "r") (.ok "r2") (by decide)

/-- C8: `clear_contexts("*")` empties the store and reports the old entry
count; any other pattern removes exactly the entries whose id contains the
pattern as a substring, reports how many, and leaves the rest untouched. -/
theorem C8_clear_semantics (m : CtxStore) (p : String) (hp : p ≠ "*") :
    clear_contexts m "*" =
      ("🧹 Cleared all " ++ toString m.length ++ " stored contexts.", []) ∧
    (clear_contexts m p).2 = m.filter (fun e => !(strHasSub e.1 p)) ∧
    (clear_contexts m p).1 =
      "🧹 Cleared " ++ toString (m.countP (fun e => strHasSub e.1 p)) ++
        " contexts matching '" ++ p ++ "'." := by
  have hcc : clear_contexts m p =
      ("🧹 Cleared " ++
        toString ((m.map (fun e => e.1)).filter
          (fun k => strHasSub k p)).length ++
        " contexts matching '" ++ p ++ "'.",
       ((m.map (fun e => e.1)).filter (fun k => strHasSub k p)).foldl
         (fun acc k => dictDel acc k) m) := by
    unfold clear_contexts
    rw [if_neg hp]
  refine ⟨rfl, ?_, ?_⟩
  · rw [hcc]
    show ((m.map (fun e => e.1)).filter (fun k => strHasSub k p)).foldl
        (fun acc k => dictDel acc k) m = _
    rw [foldl_dictDel]
    apply List.filter_congr
    intro e he
    have hmem : e.1 ∈ m.map (fun e => e.1) := List.mem_map_of_mem _ he
    by_cases hsub : strHasSub e.1 p = true
    · have hin : e.1 ∈ (m.map (fun e => e.1)).filter
          (fun k => strHasSub k p) :=
        List.mem_filter.mpr ⟨hmem, hsub⟩
      have hct : ((m.map (fun e => e.1)).filter
          (fun k => strHasSub k p)).contains e.1 = true := by
        simpa [List.elem_iff] using hin
      simp only [hct, hsub]
    · have hno : e.1 ∉ (m.map (fun e => e.1)).filter
          (fun k => strHasSub k p) := by
        intro hc
        exact hsub (List.mem_filter.mp hc).2
      have hct : ((m.map (fun e => e.1)).filter
          (fun k => strHasSub k p)).contains e.1 = false := by
        simpa [List.elem_iff] using hno
      simp only [hct]
      simp only [Bool.not_eq_true] at hsub
      simp only [hsub]
  · rw [hcc]
    show "🧹 Cleared " ++
        toString ((m.map (fun e => e.1)).filter
          (fun k => strHasSub k p)).length ++ " contexts matching '" ++ p ++
        "'." = _
    have hlen : ((m.map (fun e => e.1)).filter
        (fun k => strHasSub k p)).length =
        m.countP (fun e => strHasSub e.1 p) := by
      rw [← List.countP_eq_length_filter, List.countP_map]
      rfl
    rw [hlen]

/-- Witness for C8 at the store `{proj1, proj2, other}` with pattern
`proj`. -/
theorem C8_clear_semantics_witness :
    clear_contexts [("proj1", ⟨"a", "T", 1⟩), ("proj2", ⟨"b", "T", 1⟩),
        ("other", ⟨"c", "T", 1⟩)] "*" =
      ("🧹 Cleared all " ++ toString (3 : ℕ) ++ " stored contexts.", []) ∧
    (clear_contexts [("proj1", ⟨"a", "T", 1⟩), ("proj2", ⟨"b", "T", 1⟩),
        ("other", ⟨"c", "T", 1⟩)] "proj").2 =
      [("other", ⟨"c", "T", 1⟩)] ∧
    (clear_contexts [("proj1", ⟨"a", "T", 1⟩), ("proj2", ⟨"b", "T", 1⟩),
        ("other", ⟨"c", "T", 1⟩)] "proj").1 =
      "🧹 Cleared " ++ toString (2 : ℕ) ++ " contexts matching 'proj'." := by
  obtain ⟨h1, h2, h3⟩ := C8_clear_semantics
    [("proj1", ⟨"a", "T", 1⟩), ("proj2", ⟨"b", "T", 1⟩),
      ("other", ⟨"c", "T", 1⟩)] "proj" (by decide)
  refine ⟨h1, ?_, ?_⟩
  · rw [h2]; decide
  · rw [h3]; decide

/-- C2 counterexample: with an empty store (the id `missing` is absent),
`offload_context` with operation `summarize` or `analyze` succeeds instead
of failing with the not-found message — the derive operations never check
the store for the source id. -/
theorem C2_derive_missing_counterexample :
    dictGet ([] : CtxStore) "missing" = none ∧
    (offload_context defaultConfig ⟨fun _ => [], []⟩ 0 "T" "missing" "data"
        "summarize" (.ok "S")).1 = "📝 Summary created:\n\nS" ∧
    (offload_context defaultConfig ⟨fun _ => [], []⟩ 0 "T" "missing" "data"
        "analyze" (.ok "S")).1 = "🔍 Analysis:\n\nS" ∧
    (offload_context defaultConfig ⟨fun _ => [], []⟩ 0 "T" "missing" "data"
        "summarize" (.ok "S")).1 ≠ "❌ Context ID 'missing' not found." ∧
    (offload_context defaultConfig ⟨fun _ => [], []⟩ 0 "T" "missing" "data"
        "analyze" (.ok "S")).1 ≠ "❌ Context ID 'missing' not found." :=
  ⟨rfl, rfl, rfl, by decide, by decide⟩

/-- C2 amended: `summarize` and `analyze` never consult the store for the
source id — their output is the same whatever the store holds, they operate
on the supplied `context_data`, `summarize` persists under
`"<id>_summary"`, `analyze` writes nothing; only `retrieve` fails with the
not-found message on an absent id. -/
theorem C2_derive_ignores_store (cfg : Config) (rl : RLState)
    (ctx1 ctx2 : CtxStore) (now : ℤ) (nowIso id data : String)
    (backend : BackendOutcome) :
    (offload_context cfg ⟨rl, ctx1⟩ now nowIso id data "summarize"
        backend).1 =
      (offload_context cfg ⟨rl, ctx2⟩ now nowIso id data "summarize"
        backend).1 ∧
    (offload_context cfg ⟨rl, ctx1⟩ now nowIso id data "analyze" backend).1 =
      (offload_context cfg ⟨rl, ctx2⟩ now nowIso id data "analyze"
        backend).1 ∧
    (offload_context cfg ⟨rl, ctx1⟩ now nowIso id data "summarize"
        backend).2.ctx =
      dictSet ctx1 (id ++ "_summary")
        ⟨(chat_completion cfg rl now
            ("Please summarize this context:\n\n" ++ data)
            summarizeSystemPrompt backend).output, nowIso,
         estimate_tokens (chat_completion cfg rl now
            ("Please summarize this context:\n\n" ++ data)
            summarizeSystemPrompt backend).output⟩ ∧
    (offload_context cfg ⟨rl, ctx1⟩ now nowIso id data "analyze"
        backend).2.ctx = ctx1 ∧
    (dictGet ctx1 id = none →
      offload_context cfg ⟨rl, ctx1⟩ now nowIso id data "retrieve" backend =
        ("❌ Context ID '" ++ id ++ "' not found.", ⟨rl, ctx1⟩)) := by
  refine ⟨?_, ?_, ?_, ?_, ?_⟩
  · rw [offload_summarize_eq, offload_summarize_eq]
  · rw [offload_analyze_eq, offload_analyze_eq]
  · rw [offload_summarize_eq]
  · rw [offload_analyze_eq]
  · intro h
    exact offload_retrieve_missing cfg ⟨rl, ctx1⟩ now nowIso id data backend h

/-- Witness for C2's amended statement at an empty store. -/
theorem C2_derive_ignores_store_witness :
    offload_context defaultConfig ⟨fun _ => [], []⟩ 0 "T" "missing" "d"
        "retrieve" (.ok "S") =
      ("❌ Context ID 'missing' not found.", ⟨fun _ => [], []⟩) ∧
    (offload_context defaultConfig ⟨fun _ => [], []⟩ 0 "T" "missing" "d"
        "analyze" (.ok "S")).2.ctx = [] :=
  ⟨(C2_derive_ignores_store defaultConfig (fun _ => []) [] [] 0 "T" "missing"
      "d" (.ok "S")).2.2.2.2 (by decide),
   (C2_derive_ignores_store defaultConfig (fun _ => []) [] [] 0 "T" "missing"
      "d" (.ok "S")).2.2.2.1⟩

/-- The `retrieve` branch never changes the state, found or not. -/
lemma offload_retrieve_state (cfg : Config) (st : SState) (now : ℤ)
    (nowIso id data : String) (backend : BackendOutcome) :
    (offload_context cfg st now nowIso id data "retrieve" backend).2 = st := by
  cases h : dictGet st.ctx id with
  | none => rw [offload_retrieve_missing cfg st now nowIso id data backend h]
  | some e => rw [offload_retrieve_found cfg st now nowIso id data backend e h]

/-- The unknown-operation branch never changes the state. -/
lemma offload_unknown_eq (cfg : Config) (st : SState) (now : ℤ)
    (nowIso id data op : String) (backend : BackendOutcome)
    (h1 : op ≠ "store") (h2 : op ≠ "retrieve") (h3 : op ≠ "summarize")
    (h4 : op ≠ "analyze") :
    offload_context cfg st now nowIso id data op backend =
      ("❌ Unknown operation: " ++ op ++
        ". Use 'store', 'retrieve', 'summarize', or 'analyze'.", st) := by
  simp [offload_context, h1, h2, h3, h4]

/-- `clear_contexts` only ever removes entries; survivors were present. -/
lemma clear_contexts_subset (m : CtxStore) (pat : String) :
    ∀ e ∈ (clear_contexts m pat).2, e ∈ m := by
  by_cases hp : pat = "*"
  · subst hp
    intro e he
    simp [clear_contexts] at he
  · have hcc : (clear_contexts m pat).2 =
        ((m.map (fun e => e.1)).filter (fun k => strHasSub k pat)).foldl
          (fun acc k => dictDel acc k) m := by
      unfold clear_contexts
      rw [if_neg hp]
    rw [hcc, foldl_dictDel]
    intro e he
    exact (List.mem_filter.mp he).1

/-- C3 counterexample: under `MAX_CONTEXT_SIZE = 1`, `summarize` persists a
summary entry of 2 tokens — the summary write performs no size check, so
the `token_count <= MAX_CONTEXT_SIZE` part of the claimed invariant fails
for summary entries. -/
theorem C3_summary_size_counterexample :
    dictGet (offload_context ⟨60, 30, 1⟩ ⟨fun _ => [], []⟩ 0 "T" "a" "data"
        "summarize" (.ok "12345678")).2.ctx "a_summary" =
      some ⟨"12345678", "T", 2⟩ ∧
    ¬ ((2 : ℕ) ≤ (⟨60, 30, 1⟩ : Config).maxCtx) :=
  ⟨by decide, by decide⟩

/-- C3 amended: every entry ever present satisfies
`token_count = TokenEstimator(data)`; entries written by `store` are
additionally bounded by `MAX_CONTEXT_SIZE` (and the bound is preserved by
every operation except `summarize`, whose persisted summary is written
without the size check); `clear` only removes entries. -/
theorem C3_token_count_invariant (cfg : Config) (st : SState) (now : ℤ)
    (nowIso id data op : String) (backend : BackendOutcome)
    (hwf : ∀ e ∈ st.ctx, e.2.tokens = estimate_tokens e.2.data) :
    (∀ e ∈ (offload_context cfg st now nowIso id data op backend).2.ctx,
      e.2.tokens = estimate_tokens e.2.data) ∧
    (op ≠ "summarize" → (∀ e ∈ st.ctx, e.2.tokens ≤ cfg.maxCtx) →
      ∀ e ∈ (offload_context cfg st now nowIso id data op backend).2.ctx,
        e.2.tokens ≤ cfg.maxCtx) ∧
    (∀ pat, ∀ e ∈ (clear_contexts st.ctx pat).2, e ∈ st.ctx) := by
  refine ⟨?_, ?_, fun pat e he => clear_contexts_subset st.ctx pat e he⟩
  · by_cases h1 : op = "store"
    · subst h1
      by_cases hsz : cfg.maxCtx < estimate_tokens data
      · rw [offload_store_reject cfg st now nowIso id data backend hsz]
        exact hwf
      · push_neg at hsz
        rw [offload_store_accept cfg st now nowIso id data backend hsz]
        intro e he
        rcases mem_dictSet _ _ _ e he with rfl | hold
        · rfl
        · exact hwf e hold
    · by_cases h2 : op = "retrieve"
      · subst h2
        rw [offload_retrieve_state cfg st now nowIso id data backend]
        exact hwf
      · by_cases h3 : op = "summarize"
        · subst h3
          rw [offload_summarize_eq cfg st now nowIso id data backend]
          intro e he
          rcases mem_dictSet _ _ _ e he with rfl | hold
          · rfl
          · exact hwf e hold
        · by_cases h4 : op = "analyze"
          · subst h4
            rw [offload_analyze_eq cfg st now nowIso id data backend]
            exact hwf
          · rw [offload_unknown_eq cfg st now nowIso id data op backend
              h1 h2 h3 h4]
            exact hwf
  · intro hns hsize
    by_cases h1 : op = "store"
    · subst h1
      by_cases hsz : cfg.maxCtx < estimate_tokens data
      · rw [offload_store_reject cfg st now nowIso id data backend hsz]
        exact hsize
      · push_neg at hsz
        rw [offload_store_accept cfg st now nowIso id data backend hsz]
        intro e he
        rcases mem_dictSet _ _ _ e he with rfl | hold
        · exact hsz
        · exact hsize e hold
    · by_cases h2 : op = "retrieve"
      · subst h2
        rw [offload_retrieve_state cfg st now nowIso id data backend]
        exact hsize
      · by_cases h4 : op = "analyze"
        · subst h4
          rw [offload_analyze_eq cfg st now nowIso id data backend]
          exact hsize
        · rw [offload_unknown_eq cfg st now nowIso id data op backend
            h1 h2 hns h4]
          exact hsize

/-- Witness for C3's amended invariant: after storing a fresh entry over a
well-formed store, the new entry satisfies the token equation. -/
theorem C3_token_count_invariant_witness :
    (("b", (⟨"xyzw", "T2", 1⟩ : ContextEntry)) :
        String × ContextEntry).2.tokens =
      estimate_tokens (("b", (⟨"xyzw", "T2", 1⟩ : ContextEntry)) :
        String × ContextEntry).2.data :=
  (C3_token_count_invariant defaultConfig
      ⟨fun _ => [], [("a", ⟨"abcd", "T", 1⟩)]⟩ 0 "T2" "b" "xyzw" "store"
      (.ok "r") (by decide)).1 ("b", ⟨"xyzw", "T2", 1⟩) (by decide)

/-- `dropLast` commutes with `map`. -/
lemma dropLast_map_comm {α β : Type} (f : α → β) :
    ∀ l : List α, (l.map f).dropLast = l.dropLast.map f
  | [] => rfl
  | [_] => rfl
  | a :: b :: l => by
    simp only [List.map_cons, List.dropLast_cons₂]
    rw [← List.map_cons f b l]
    rw [dropLast_map_comm f (b :: l)]

/-- `dropLast` of an initial segment of the naturals. -/
lemma dropLast_range (n : ℕ) : (List.range (n + 1)).dropLast = List.range n := by
  rw [List.range_succ]
  exact List.dropLast_concat ..

/-- The chunk count of `chunkList` is the ceiling `(len + k - 1) / k`. -/
lemma chunkList_length (k : ℕ) (l : List String) :
    (chunkList k l).length = (l.length + k - 1) / k := by
  simp [chunkList]

/-- Concatenating the chunks of `chunkList` restores the item list in
order. -/
lemma chunkList_join (k : ℕ) (hk : 0 < k) :
    ∀ n, ∀ l : List String, l.length ≤ n → (chunkList k l).flatten = l := by
  intro n
  induction n with
  | zero =>
    intro l hl
    have hnil : l = [] := List.eq_nil_of_length_eq_zero (Nat.le_zero.mp hl)
    subst hnil
    simp [chunkList, Nat.div_eq_of_lt (by omega : k - 1 < k)]
  | succ n ih =>
    intro l hl
    cases l with
    | nil => simp [chunkList, Nat.div_eq_of_lt (by omega : k - 1 < k)]
    | cons a l2 =>
      have hN : (a :: l2).length = l2.length + 1 := rfl
      have hc : ((a :: l2).length + k - 1) / k =
          ((a :: l2).length - 1) / k + 1 := by
        have harith : (a :: l2).length + k - 1 = ((a :: l2).length - 1) + k := by
          simp only [hN]
          omega
        rw [harith, Nat.add_div_right _ hk]
      have hceil : (((a :: l2).length - k) + k - 1) / k =
          ((a :: l2).length - 1) / k := by
        by_cases hNk : k ≤ (a :: l2).length
        · have harith : ((a :: l2).length - k) + k - 1 = (a :: l2).length - 1 := by
            omega
          rw [harith]
        · have h0 : (a :: l2).length - k = 0 := by omega
          rw [h0]
          rw [Nat.div_eq_of_lt (by omega : 0 + k - 1 < k),
            Nat.div_eq_of_lt (by simp only [hN]; omega)]
      unfold chunkList
      rw [hc, List.range_succ_eq_map, List.map_cons, List.map_map]
      have hhead : ((a :: l2).drop (0 * k)).take k = (a :: l2).take k := by
        simp
      have htail : (List.range (((a :: l2).length - 1) / k)).map
          ((fun j => ((a :: l2).drop (j * k)).take k) ∘ Nat.succ) =
          chunkList k ((a :: l2).drop k) := by
        unfold chunkList
        rw [List.length_drop, hceil]
        apply List.map_congr_left
        intro j _
        show ((a :: l2).drop (Nat.succ j * k)).take k = _
        have harith : Nat.succ j * k = k + j * k := by
          rw [Nat.succ_eq_add_one]
          ring
        rw [harith, ← List.drop_drop]
      rw [hhead, htail]
      show (a :: l2).take k ++ (chunkList k ((a :: l2).drop k)).flatten = a :: l2
      rw [ih ((a :: l2).drop k) (by simp only [List.length_drop, hN]; omega)]
      exact List.take_append_drop k (a :: l2)

/-- C7: for a positive chunk size `k`, `chunkList` (the `range`-and-slice
loop of `batch_process`) produces exactly `ceil(N / k)` consecutive chunks
whose concatenation restores the items in order, whose sizes sum to `N`,
every chunk nonempty of size at most `k`, and every chunk except the last
of size exactly `k`. -/
theorem C7_chunking (k : ℕ) (l : List String) (hk : 0 < k) (hne : l ≠ []) :
    (chunkList k l).length = (l.length + k - 1) / k ∧
    (chunkList k l).flatten = l ∧
    ((chunkList k l).map (fun c => c.length)).sum = l.length ∧
    (∀ c ∈ chunkList k l, c.length ≤ k ∧ c ≠ []) ∧
    (∀ c ∈ (chunkList k l).dropLast, c.length = k) := by
  have hjoin : (chunkList k l).flatten = l :=
    chunkList_join k hk l.length l (le_refl _)
  refine ⟨chunkList_length k l, hjoin, ?_, ?_, ?_⟩
  · rw [← List.length_flatten, hjoin]
  · intro c hc
    obtain ⟨j, hj, rfl⟩ := List.mem_map.mp hc
    have hjlt : j < (l.length + k - 1) / k := List.mem_range.mp hj
    have hmul : (j + 1) * k ≤ l.length + k - 1 :=
      (Nat.le_div_iff_mul_le hk).mp (Nat.succ_le_of_lt hjlt)
    have harith : (j + 1) * k = j * k + k := by ring
    have hlt : j * k < l.length := by omega
    constructor
    · rw [List.length_take]
      exact min_le_left _ _
    · have hpos : 0 < ((l.drop (j * k)).take k).length := by
        rw [List.length_take, List.length_drop]
        omega
      exact List.ne_nil_of_length_pos hpos
  · intro c hc
    unfold chunkList at hc
    rw [dropLast_map_comm] at hc
    rcases hcc : (l.length + k - 1) / k with _ | m
    · rw [hcc] at hc
      simp at hc
    · rw [hcc, dropLast_range] at hc
      obtain ⟨j, hj, rfl⟩ := List.mem_map.mp hc
      have hjlt : j < m := List.mem_range.mp hj
      have hmul : (j + 2) * k ≤ l.length + k - 1 := by
        apply (Nat.le_div_iff_mul_le hk).mp
        omega
      have harith : (j + 2) * k = j * k + k + k := by ring
      rw [List.length_take, List.length_drop]
      omega

/-- Witness for C7 at seven items in chunks of three. -/
theorem C7_chunking_witness :
    (chunkList 3 ["i1", "i2", "i3", "i4", "i5", "i6", "i7"]).length =
      (7 + 3 - 1) / 3 ∧
    (chunkList 3 ["i1", "i2", "i3", "i4", "i5", "i6", "i7"]).flatten =
      ["i1", "i2", "i3", "i4", "i5", "i6", "i7"] := by
  obtain ⟨h1, h2, _, _, _⟩ := C7_chunking 3
    ["i1", "i2", "i3", "i4", "i5", "i6", "i7"] (by decide) (by decide)
  exact ⟨h1, h2⟩

/-- C4 counterexample: seven items in chunks of five under a budget of two
admissions per window.  The first chunk succeeds (consuming both
admissions: the chunk check and the gateway's own check), the second
chunk's check is denied, so the loop exits having processed only the 5
items of chunk 1 (the warning text says so, and the loop counter reads 5)
— yet the structured result reports `processed_items = min(2 * 5, 7) = 7`,
because the warning entry itself is counted as a result, and its results
list is not just the per-chunk outputs. -/
theorem C4_processed_count_counterexample :
    (batch_process ⟨60, 2, 32000⟩ (fun _ => []) (fun _ => 0) (fun _ => .ok "A")
        ["i1", "i2", "i3", "i4", "i5", "i6", "i7"] "op" 5 false).1 =
      .structured 7 7 ["**Batch 1/2:**\nA",
        "⚠️ Rate limit hit at batch 2. Processed 5 items."] ∧
    (batchGo ⟨60, 2, 32000⟩ (fun _ => 0) (fun _ => .ok "A") "op" 5 2
        (chunkList 5 ["i1", "i2", "i3", "i4", "i5", "i6", "i7"]) 0 0
        (fun _ => []) []).2.2 = 5 ∧
    (7 : ℕ) ≠ 5 :=
  ⟨by decide, by decide, by decide⟩

/-- C4 amended: a denied chunk check stops the loop immediately, appending
a warning that reports exactly the loop counter — the number of items in
completed chunks; with `combine_results` false the structured result is
`total_items = N` and `processed_items = min(len(results) * batch_size,
N)` over the result list the loop produced (which includes the warning
entry after a rate-limit stop, so the count can exceed the items actually
processed). -/
theorem C4_batch_partial_semantics (cfg : Config) (ticks : ℕ → ℤ)
    (backends : ℕ → BackendOutcome) (op : String) (bs tb : ℕ) :
    (∀ batch rest i t m acc,
      (check_rate_limitM cfg m "default" (ticks t)).2 = false →
      batchGo cfg ticks backends op bs tb (batch :: rest) i t m acc =
        (acc ++ ["⚠️ Rate limit hit at batch " ++ toString (i / bs + 1) ++
           ". Processed " ++ toString i ++ " items."],
         (check_rate_limitM cfg m "default" (ticks t)).1, i)) ∧
    (∀ m items, items ≠ ([] : List String) → bs ≠ 0 →
      batch_process cfg m ticks backends items op bs false =
        (.structured items.length
          (min ((batchGo cfg ticks backends op bs
              ((items.length + bs - 1) / bs) (chunkList bs items) 0 0 m
              []).1.length * bs) items.length)
          (batchGo cfg ticks backends op bs ((items.length + bs - 1) / bs)
            (chunkList bs items) 0 0 m []).1,
         (batchGo cfg ticks backends op bs ((items.length + bs - 1) / bs)
           (chunkList bs items) 0 0 m []).2.1)) := by
  constructor
  · intro batch rest i t m acc h
    simp only [batchGo, h, if_true]
  · intro m items hne hbs
    simp [batch_process, hne, hbs, List.isEmpty_iff]

/-- Witness for C4's amended statement: an immediately denied first chunk
under a zero budget, and the structured result it produces. -/
theorem C4_batch_partial_semantics_witness :
    (batchGo ⟨60, 0, 32000⟩ (fun _ => 0) (fun _ => .ok "A") "op" 5 2
        [["i1", "i2", "i3", "i4", "i5"], ["i6", "i7"]] 0 0 (fun _ => [])
        []).1 = ["⚠️ Rate limit hit at batch 1. Processed 0 items."] ∧
    (batch_process ⟨60, 0, 32000⟩ (fun _ => []) (fun _ => 0)
        (fun _ => .ok "A") ["a"] "op" 1 false).1 =
      .structured 1 1 ["⚠️ Rate limit hit at batch 1. Processed 0 items."] := by
  constructor
  · have h1 := (C4_batch_partial_semantics ⟨60, 0, 32000⟩ (fun _ => 0)
      (fun _ => .ok "A") "op" 5 2).1 ["i1", "i2", "i3", "i4", "i5"]
      [["i6", "i7"]] 0 0 (fun _ => []) [] (by decide)
    rw [h1]
    decide
  · have h2 := (C4_batch_partial_semantics ⟨60, 0, 32000⟩ (fun _ => 0)
      (fun _ => .ok "A") "op" 1 0).2 (fun _ => []) ["a"] (by decide)
      (by decide)
    rw [h2]
    decide
